import Mathlib

/-!
Shallow embedding of the mood-analytics slice of the ClarityHub backend
(`src/controllers/moodController.ts` and the `MoodEntry` schema), together
with theorems checking the specification's claims about it.

Strings are modelled as `List Char`; timestamps as `Int` milliseconds since
the Unix epoch; scores as `Int`; rational arithmetic (`ℚ`) stands for
JavaScript number arithmetic in the ranges exercised here (sums, means and
variances of small integers, where IEEE doubles are exact).
-/

namespace ClarityHub

/-! ### Character classes (ASCII, as in JavaScript regex classes) -/

/-- JavaScript `\w`: `[A-Za-z0-9_]`. -/
def isWordChar (c : Char) : Bool := c.isAlpha || c.isDigit || c == '_'

/-- Word-character status of an optional character; `none` (string edge)
counts as non-word, as in JavaScript `\b`. -/
def optWord : Option Char → Bool
  | none => false
  | some c => isWordChar c

/-! ### A small regex engine

The three patterns of `sanitizeNote` are sequences of three kinds of items:
a word-boundary assertion `\b`, a single character class, and a greedy
counted repetition `{n,}` / `+` of a character class.  `tryMatch` performs
the leftmost-anchored match with the same greedy-longest-first backtracking
a JavaScript engine uses; `replaceAll` mirrors `String.prototype.replace`
with a global flag (scan left to right, replace each leftmost match,
resume after the matched text). -/

inductive RItem where
  | wb : RItem
  | one : (Char → Bool) → RItem
  | rep : Nat → (Char → Bool) → RItem

/-- Try to match the item sequence at the head of `l`; `prev` is the
character just before the match position (for `\b`).  Returns the number of
characters consumed.  A repetition first takes the greedy maximum run and
backtracks one character at a time, as a JavaScript engine does. -/
def tryMatch : Option Char → List RItem → List Char → Option Nat
  | _, [], _ => some 0
  | prev, .wb :: rest, l =>
      if optWord prev != optWord l.head? then tryMatch prev rest l else none
  | _, .one _ :: _, [] => none
  | _, .one p :: rest, c :: l =>
      if p c then (tryMatch (some c) rest l).map (· + 1) else none
  | prev, .rep n p :: rest, l =>
      let maxRun := (l.takeWhile p).length
      (List.range (maxRun + 1 - n)).findSome? fun d =>
        let k := maxRun - d
        let prev2 := match (l.take k).getLast? with
          | some c => some c
          | none => prev
        (tryMatch prev2 rest (l.drop k)).map (fun m => k + m)

/-- Global replace: at each position try the pattern; on a match emit the
replacement and resume after the consumed characters, otherwise keep the
character and move on.  (None of the three patterns can match the empty
string, so a zero-length match is treated as no match.)  The `fuel`
argument always bounds the length of the remaining input (it starts as the
input's length), so the `fuel = 0` branch only ever sees the empty list. -/
def replaceGo (items : List RItem) (repl : List Char) :
    Nat → Option Char → List Char → List Char
  | 0, _, l => l
  | _, _, [] => []
  | fuel + 1, prev, c :: l =>
      match tryMatch prev items (c :: l) with
      | some (k + 1) =>
          repl ++ replaceGo items repl fuel (((c :: l).take (k + 1)).getLast?)
            (l.drop k)
      | _ => c :: replaceGo items repl fuel (some c) l

def replaceAll (items : List RItem) (repl : List Char) (s : List Char) :
    List Char :=
  replaceGo items repl s.length none s

/-! ### The three redaction patterns of `sanitizeNote` -/

/-- Pattern `/\b\d{10,}\b/g`. -/
def numberRegex : List RItem := [.wb, .rep 10 Char.isDigit, .wb]

/-- local part class `[A-Za-z0-9._%+-]` -/
def localClass (c : Char) : Bool :=
  c.isAlpha || c.isDigit || c == '.' || c == '_' || c == '%' || c == '+' || c == '-'

/-- domain class `[A-Za-z0-9.-]` -/
def domainClass (c : Char) : Bool :=
  c.isAlpha || c.isDigit || c == '.' || c == '-'

/-- top-level class `[A-Z|a-z]` (the source class literally includes `|`). -/
def tldClass (c : Char) : Bool := c.isAlpha || c == '|'

/-- Pattern `/\b[A-Za-z0-9._%+-]+@[A-Za-z0-9.-]+\.[A-Z|a-z]{2,}\b/g`. -/
def emailRegex : List RItem :=
  [.wb, .rep 1 localClass, .one (· == '@'), .rep 1 domainClass,
   .one (· == '.'), .rep 2 tldClass, .wb]

/-- Pattern `/\b[A-Z][a-z]+ [A-Z][a-z]+\b/g`. -/
def nameRegex : List RItem :=
  [.wb, .one Char.isUpper, .rep 1 Char.isLower, .one (· == ' '),
   .one Char.isUpper, .rep 1 Char.isLower, .wb]

/-- JavaScript `String.prototype.trim` whitespace (the characters relevant
here; full Unicode space classes omitted). -/
def jsWhitespace (c : Char) : Bool :=
  c == ' ' || c == '\t' || c == '\n' || c == '\r' ||
  c.val == 11 || c.val == 12 || c.val == 0xa0 || c.val == 0xfeff

def jsTrim (l : List Char) : List Char :=
  ((l.dropWhile jsWhitespace).reverse.dropWhile jsWhitespace).reverse

/-- Function `sanitizeNote` (moodController.ts lines 6-13): replace 10+-digit runs,
then email-shaped substrings, then two-capitalized-word substrings, then
trim and truncate to 500 characters. -/
def sanitizeNote (s : List Char) : List Char :=
  (jsTrim (replaceAll nameRegex ("[name]".data)
    (replaceAll emailRegex ("[email]".data)
      (replaceAll numberRegex ("[number]".data) s)))).take 500

/-! ### Substring helpers -/

def startsWithSeq : List Char → List Char → Bool
  | [], _ => true
  | _ :: _, [] => false
  | p :: ps, c :: cs => p == c && startsWithSeq ps cs

/-- Predicate `containsSeq pat s`: true when `pat` occurs as a contiguous substring
of `s`. -/
def containsSeq (pat : List Char) : List Char → Bool
  | [] => startsWithSeq pat []
  | c :: rest => startsWithSeq pat (c :: rest) || containsSeq pat rest

/-! ### Data model (`MoodEntry` schema, `src/unnamed/part_003`) -/

structure MoodEntry where
  userId : Nat
  timestamp : Int
  moodScore : Int
  moodLabel : String
  noteSummary : Option String := none
  noteHash : Option String := none
  noteEncrypted : Option String := none
  source : String := "USER_ENTRY"
deriving DecidableEq

def dfltEntry : MoodEntry :=
  { userId := 0, timestamp := 0, moodScore := 0, moodLabel := "" }

def validScores : List Int := [-2, -1, 0, 1, 2]

def validLabels : List String :=
  ["VERY_SAD", "SAD", "NEUTRAL", "HAPPY", "VERY_HAPPY"]

def validSources : List String := ["USER_ENTRY", "SESSION_END", "PROMPT"]

/-- Enum validation the ODM runs on insert (the schema declares `enum` for
`moodScore`, `moodLabel` and `source`): the insert succeeds and appends the
document, or fails and leaves the store unchanged. -/
def moodEntryCreate (store : List MoodEntry) (e : MoodEntry) :
    Option (List MoodEntry) :=
  if e.moodScore ∈ validScores ∧ e.moodLabel ∈ validLabels ∧
      e.source ∈ validSources then
    some (store ++ [e])
  else none

def msPerDay : Int := 1000 * 60 * 60 * 24

/-- One step of the stable descending insertion sort: place `e` before the
first element whose timestamp is not larger. -/
def insertDesc (e : MoodEntry) : List MoodEntry → List MoodEntry
  | [] => [e]
  | x :: xs =>
      if x.timestamp ≤ e.timestamp then e :: x :: xs
      else x :: insertDesc e xs

/-- Query `sort({ timestamp: -1 })` / the controller's explicit comparator sort:
newest first (stable insertion sort; tie order among equal timestamps is
unspecified at the store level, one fixed order is used throughout). -/
def sortByTimestampDesc : List MoodEntry → List MoodEntry
  | [] => []
  | e :: rest => insertDesc e (sortByTimestampDesc rest)

/-- Helper `getDateRange` (moodController.ts lines 24-43): known ranges compute a
cutoff of now minus N days (day arithmetic modelled as fixed 86400000 ms),
"all" yields no cutoff, and any other string falls through the switch and
returns the freshly-constructed current date unchanged. -/
def getDateRange (range : String) (now : Int) : Option Int :=
  if range = "7d" then some (now - 7 * msPerDay)
  else if range = "30d" then some (now - 30 * msPerDay)
  else if range = "90d" then some (now - 90 * msPerDay)
  else if range = "all" then none
  else some now

/-- Query `MoodEntry.find` on userId with an optional timestamp lower bound. -/
def userEntries (store : List MoodEntry) (uid : Nat) (cutoff : Option Int) :
    List MoodEntry :=
  store.filter fun e =>
    e.userId == uid &&
      match cutoff with
      | some t => t ≤ e.timestamp
      | none => true

/-- Projection `.select("-noteEncrypted -noteHash")`. -/
def selectHide (e : MoodEntry) : MoodEntry :=
  { e with noteEncrypted := none, noteHash := none }

/-- Expression `(req.query.range as string) || "7d"`: absent or empty query values are
falsy and fall back to the default. -/
def rangeOrDefault (range : Option String) (dflt : String) : String :=
  match range with
  | none => dflt
  | some s => if s = "" then dflt else s

/-! ### Record-mood operation -/

structure RecordBody where
  moodScore : Option Int := none
  moodLabel : Option String := none
  note : Option String := none
  source : Option String := none

structure RecordRes where
  status : Nat
  store : List MoodEntry
  created : Option MoodEntry := none

/-- The note processing of `recordMood` (lines 77-84): when the note is
present and non-blank, the sanitized summary and the digest of the
trimmed, lower-cased raw note; otherwise neither field.  The SHA-256
digest of `hashNote` is external crypto, taken as the parameter `hash`. -/
def noteFieldsOf (hash : String → String) (note : Option String) :
    Option String × Option String :=
  match note with
  | some s =>
      if (jsTrim s.data).isEmpty then (none, none)
      else
        (some (String.mk (sanitizeNote s.data)),
         some (hash (String.mk (jsTrim s.data)).toLower))
  | none => (none, none)

/-- Handler `recordMood` (moodController.ts lines 46-108). -/
def recordMood (hash : String → String) (userId : Option Nat)
    (body : RecordBody) (store : List MoodEntry) (now : Int) : RecordRes :=
  match userId with
  | none => { status := 401, store := store }
  | some uid =>
      let src := body.source.getD "USER_ENTRY"
      match body.moodScore with
      | none => { status := 400, store := store }
      | some sc =>
          match body.moodLabel with
          | none => { status := 400, store := store }
          | some lbl =>
              if lbl = "" then { status := 400, store := store }
              else if sc ∉ validScores then { status := 400, store := store }
              else if lbl ∉ validLabels then { status := 400, store := store }
              else
                let notePair := noteFieldsOf hash body.note
                let e : MoodEntry :=
                  { userId := uid, timestamp := now, moodScore := sc,
                    moodLabel := lbl, noteSummary := notePair.1,
                    noteHash := notePair.2, noteEncrypted := none,
                    source := src }
                match moodEntryCreate store e with
                | some store2 => { status := 201, store := store2, created := some e }
                | none => { status := 500, store := store }

/-! ### History and export -/

structure EntriesRes where
  status : Nat
  data : List MoodEntry

/-- Handler `getMoodHistory` (moodController.ts lines 111-145). -/
def getMoodHistory (store : List MoodEntry) (userId : Option Nat)
    (range : Option String) (now : Int) : EntriesRes :=
  match userId with
  | none => { status := 401, data := [] }
  | some uid =>
      let r := rangeOrDefault range "7d"
      let startDate := getDateRange r now
      { status := 200,
        data := ((sortByTimestampDesc (userEntries store uid startDate)).take
          1000).map selectHide }

/-- Handler `exportMoodData` (moodController.ts lines 530-557). -/
def exportMoodData (store : List MoodEntry) (userId : Option Nat) :
    EntriesRes :=
  match userId with
  | none => { status := 401, data := [] }
  | some uid =>
      { status := 200,
        data := (sortByTimestampDesc
          (store.filter fun e => e.userId == uid)).map selectHide }

/-! ### Statistics -/

def daysDiff (now ts : Int) : Int := (now - ts).fdiv msPerDay

def epochDay (ts : Int) : Int := ts.fdiv msPerDay

/-- The streak loop of `getMoodStats` (lines 266-280): walk the
newest-first list and count while the i-th entry lies exactly i
floor-days in the past; stop at the first mismatch. -/
def streakGo (now : Int) : List MoodEntry → Nat → Nat
  | [], _ => 0
  | e :: rest, i =>
      if daysDiff now e.timestamp = (i : Int) then streakGo now rest (i + 1) + 1
      else 0

/-- The reducer of the best-day fold: keep the current best unless the
candidate is strictly greater. -/
def bestStep (b c : MoodEntry) : MoodEntry :=
  if b.moodScore < c.moodScore then c else b

/-- JavaScript `Math.round` (half-up toward positive infinity). -/
def jsRound (q : ℚ) : Int := ⌊q + 1 / 2⌋

def mean (l : List Int) : ℚ := (l.sum : ℚ) / l.length

structure StatsData where
  averageScore : ℚ
  totalEntries : Nat
  bestDayDate : Int
  bestDayScore : Int
  currentStreak : Nat
  distribution : String → Nat

structure StatsRes where
  status : Nat
  data : Option StatsData

/-- The window `getMoodStats` works on: the user's entries after the
resolved cutoff, newest first. -/
def statsEntries (store : List MoodEntry) (uid : Nat) (range : Option String)
    (now : Int) : List MoodEntry :=
  sortByTimestampDesc
    (userEntries store uid (getDateRange (rangeOrDefault range "30d") now))

/-- The body of `getMoodStats` (moodController.ts lines 221-293) for a
resolved identity.  `bestDayDate` is the calendar date of
`toISOString().split("T")[0]`, modelled as the UTC epoch day number. -/
def getMoodStatsData (store : List MoodEntry) (uid : Nat)
    (range : Option String) (now : Int) : StatsData :=
  let entries := statsEntries store uid range now
  let totalEntries := entries.length
  let averageScore : ℚ :=
    if 0 < totalEntries then mean (entries.map (·.moodScore)) else 0
  let bestEntry :=
    entries.foldl bestStep (entries.headD { dfltEntry with timestamp := now })
  let sortedEntries := sortByTimestampDesc entries
  { averageScore := (jsRound (averageScore * 100) : ℚ) / 100,
    totalEntries := totalEntries,
    bestDayDate := epochDay bestEntry.timestamp,
    bestDayScore := bestEntry.moodScore,
    currentStreak := streakGo now sortedEntries 0,
    distribution := fun lbl =>
      if lbl ∈ validLabels then
        (entries.filter (·.moodLabel == lbl)).length
      else 0 }

/-- Handler `getMoodStats` (moodController.ts lines 211-302). -/
def getMoodStats (store : List MoodEntry) (userId : Option Nat)
    (range : Option String) (now : Int) : StatsRes :=
  match userId with
  | none => { status := 401, data := none }
  | some uid =>
      { status := 200, data := some (getMoodStatsData store uid range now) }

/-! ### Insights -/

structure Insight where
  title : String
  observation : String
  suggestion : String
  tone : String
  dataPoints : Nat
  confidence : ℚ
deriving DecidableEq

def lowerInsight (n : Nat) : Insight :=
  { title := "Lower Mood Pattern Observed",
    observation := "Your recent mood scores have been on the lower side. This might be worth noticing, but remember - fluctuations are normal.",
    suggestion := "Consider exploring activities that have historically improved your mood, or reach out to someone you trust.",
    tone := "gentle", dataPoints := n, confidence := 7 / 10 }

def positiveInsight (n : Nat) : Insight :=
  { title := "Positive Mood Trend",
    observation := "You've been recording more positive moods recently. That's great to see!",
    suggestion := "Reflect on what's been going well - it might help you recognize patterns worth maintaining.",
    tone := "encouraging", dataPoints := n, confidence := 3 / 4 }

def variabilityInsight (n : Nat) : Insight :=
  { title := "Mood Variability Noticed",
    observation := "Your mood has been fluctuating quite a bit. This could be influenced by various factors in your environment or routine.",
    suggestion := "You might find it helpful to note what's happening when you track your mood - patterns might emerge.",
    tone := "neutral", dataPoints := n, confidence := 13 / 20 }

structure InsightsRes where
  status : Nat
  data : List Insight
  message : Option String := none

/-- Query `find({userId}).sort({timestamp:-1}).limit(30)`. -/
def recentEntries30 (store : List MoodEntry) (uid : Nat) : List MoodEntry :=
  (sortByTimestampDesc (store.filter fun e => e.userId == uid)).take 30

/-- The population variance of `getMoodInsights` (sum of squared
deviations from the mean, over the count). -/
def insightVariance (scores : List Int) : ℚ :=
  (scores.map fun s => ((s : ℚ) - mean scores) ^ 2).sum / scores.length

/-- Handler `getMoodInsights` (moodController.ts lines 305-393): most recent 30
entries; fewer than 7 yields an empty result with a message; otherwise the
mean-threshold branch (if/else-if) and the independent variance branch. -/
def getMoodInsights (store : List MoodEntry) (userId : Option Nat) :
    InsightsRes :=
  match userId with
  | none => { status := 401, data := [] }
  | some uid =>
      let entries := recentEntries30 store uid
      if entries.length < 7 then
        { status := 200, data := [],
          message := some "Not enough data for insights. Keep tracking!" }
      else
        let scores := entries.map (·.moodScore)
        let avgScore := mean scores
        let base :=
          if avgScore < -(1 / 2) then [lowerInsight entries.length]
          else if 1 / 2 < avgScore then [positiveInsight entries.length]
          else []
        let variance := insightVariance scores
        { status := 200,
          data := base ++
            (if 3 / 2 < variance then [variabilityInsight entries.length]
             else []) }

/-! ### Patterns -/

/-- UTC day of week of a timestamp (0 = Sunday); 1970-01-01 was a Thursday
(= 4).  The source uses `Date.prototype.getDay` in server-local time,
modelled here as UTC. -/
def jsGetDay (ts : Int) : Int := (epochDay ts + 4) % 7

structure Pattern where
  type : String
  description : String
  confidence : ℚ
  suggestion : String
deriving DecidableEq

structure PatternsRes where
  status : Nat
  data : List Pattern
  message : Option String := none

/-- Query `find({userId}).sort({timestamp:-1}).limit(90)`. -/
def recentEntries90 (store : List MoodEntry) (uid : Nat) : List MoodEntry :=
  (sortByTimestampDesc (store.filter fun e => e.userId == uid)).take 90

/-- Test whether `entry.timestamp.getDay()` lands on Sunday (0) or Saturday (6). -/
def isWeekendEntry (e : MoodEntry) : Bool :=
  jsGetDay e.timestamp == 0 || jsGetDay e.timestamp == 6

def weekendScoresOf (entries : List MoodEntry) : List Int :=
  (entries.filter isWeekendEntry).map (·.moodScore)

def weekdayScoresOf (entries : List MoodEntry) : List Int :=
  (entries.filter fun e => !isWeekendEntry e).map (·.moodScore)

/-- The time-based (weekday vs weekend) pattern block of
`getMoodPatterns` (lines 420-452). -/
def timePatternsOf (entries : List MoodEntry) : List Pattern :=
  let weekdayScores := weekdayScoresOf entries
  let weekendScores := weekendScoresOf entries
  if 5 < weekdayScores.length ∧ 2 < weekendScores.length then
    let weekdayAvg := mean weekdayScores
    let weekendAvg := mean weekendScores
    let diff := |weekdayAvg - weekendAvg|
    if 1 / 2 < diff then
      [{ type := "time_based",
         description :=
           if weekdayAvg < weekendAvg then
             "Your mood tends to be lower on weekdays compared to weekends."
           else
             "Your mood tends to be higher on weekdays compared to weekends.",
         confidence := min (diff / 2) (9 / 10),
         suggestion := "Consider what differs between weekdays and weekends that might affect your mood." }]
    else []
  else []

/-- The two-window trend block of `getMoodPatterns` (lines 454-481). -/
def trendPatternsOf (entries : List MoodEntry) : List Pattern :=
  let recentEntries := entries.take 14
  let olderEntries := (entries.drop 14).take 14
  if 0 < olderEntries.length then
    let recentAvg := mean (recentEntries.map (·.moodScore))
    let olderAvg := mean (olderEntries.map (·.moodScore))
    let trendDiff := recentAvg - olderAvg
    if 1 / 2 < |trendDiff| then
      [{ type := "trend",
         description :=
           if 0 < trendDiff then
             "Your mood has been trending upward over the past two weeks."
           else
             "Your mood has been trending downward over the past two weeks.",
         confidence := min (|trendDiff| / 2) (17 / 20),
         suggestion :=
           if 0 < trendDiff then
             "Whatever you're doing seems to be working. Keep it up!"
           else
             "If this trend continues, it might be worth exploring what's changed recently." }]
    else []
  else []

/-- Handler `getMoodPatterns` (moodController.ts lines 396-494): most recent 90
entries, at least 14 required; weekday/weekend comparison and the
two-window trend comparison. -/
def getMoodPatterns (store : List MoodEntry) (userId : Option Nat) :
    PatternsRes :=
  match userId with
  | none => { status := 401, data := [] }
  | some uid =>
      let entries := recentEntries90 store uid
      if entries.length < 14 then
        { status := 200, data := [],
          message := some "Not enough data for pattern detection" }
      else
        { status := 200,
          data := timePatternsOf entries ++ trendPatternsOf entries }

/-! ### Serialization (`toJSON` transform of the schema) -/

inductive JVal where
  | str : String → JVal
  | num : Int → JVal
deriving DecidableEq

/-- The document's present fields as the ODM lays them out before the
`toJSON` transform runs — including the sensitive ones when present. -/
def entryFields (e : MoodEntry) : List (String × JVal) :=
  [("userId", .num e.userId), ("timestamp", .num e.timestamp),
   ("moodScore", .num e.moodScore), ("moodLabel", .str e.moodLabel)] ++
  (match e.noteSummary with
   | some s => [("noteSummary", .str s)]
   | none => []) ++
  (match e.noteEncrypted with
   | some s => [("noteEncrypted", .str s)]
   | none => []) ++
  (match e.noteHash with
   | some s => [("noteHash", .str s)]
   | none => []) ++
  [("source", .str e.source)]

/-- A serialized field is neither of the two sensitive keys. -/
def noSensitive (kv : String × JVal) : Bool :=
  kv.1 != "noteEncrypted" && kv.1 != "noteHash"

/-- Transform `MoodEntrySchema.set("toJSON", ...)` (part_003 lines 314-321): delete
`noteEncrypted` and `noteHash` from every serialized record. -/
def toJSONEntry (e : MoodEntry) : List (String × JVal) :=
  (entryFields e).filter noSensitive

/-- The serialized `data` of a 201 record-mood response. -/
def recordMoodSerialized (hash : String → String) (userId : Option Nat)
    (body : RecordBody) (store : List MoodEntry) (now : Int) :
    Option (List (String × JVal)) :=
  (recordMood hash userId body store now).created.map toJSONEntry

/-- The serialized `data` of a history response. -/
def historySerialized (store : List MoodEntry) (userId : Option Nat)
    (range : Option String) (now : Int) : List (List (String × JVal)) :=
  (getMoodHistory store userId range now).data.map toJSONEntry

/-- The serialized `data` of an export response. -/
def exportSerialized (store : List MoodEntry) (userId : Option Nat) :
    List (List (String × JVal)) :=
  (exportMoodData store userId).data.map toJSONEntry

/-! ## Helper lemmas -/

theorem length_insertDesc (e : MoodEntry) (l : List MoodEntry) :
    (insertDesc e l).length = l.length + 1 := by
  induction l with
  | nil => rfl
  | cons x xs ih =>
      simp only [insertDesc]
      split
      · simp
      · simp [ih]

theorem length_sortByTimestampDesc (l : List MoodEntry) :
    (sortByTimestampDesc l).length = l.length := by
  induction l with
  | nil => rfl
  | cons e rest ih => simp [sortByTimestampDesc, length_insertDesc, ih]

/-! ## Claim theorems -/

/-- The PII example string of the spec. -/
def piiExample : List Char := "Call John Smith at 5551234567 or john@x.com".data

/-- C2: sanitizing the example input yields a string containing the
`[name]`, `[number]` and `[email]` tokens and none of the original PII
substrings ("John Smith", "5551234567", "john@x.com"); in general,
sanitization replaces 10+-digit runs with `[number]`, then email-shaped
substrings with `[email]`, then two-capitalized-word substrings with
`[name]`, in that order, before trimming and truncating to 500
characters. -/
theorem c2_sanitize_redaction (s : List Char) :
    sanitizeNote s =
      (jsTrim (replaceAll nameRegex ("[name]".data)
        (replaceAll emailRegex ("[email]".data)
          (replaceAll numberRegex ("[number]".data) s)))).take 500 ∧
    containsSeq ("[name]".data) (sanitizeNote piiExample) = true ∧
    containsSeq ("[number]".data) (sanitizeNote piiExample) = true ∧
    containsSeq ("[email]".data) (sanitizeNote piiExample) = true ∧
    containsSeq ("John Smith".data) (sanitizeNote piiExample) = false ∧
    containsSeq ("5551234567".data) (sanitizeNote piiExample) = false ∧
    containsSeq ("john@x.com".data) (sanitizeNote piiExample) = false :=
  ⟨rfl, by decide⟩

/-- C4: with a resolved identity, a supplied `moodScore` outside
{-2,-1,0,1,2} or a supplied `moodLabel` outside the five legal labels is
rejected with 400 and the store is unchanged. -/
theorem c4_record_invalid_rejected (hash : String → String) (uid : Nat)
    (body : RecordBody) (store : List MoodEntry) (now : Int) (sc : Int)
    (lbl : String) (hsc : body.moodScore = some sc)
    (hlbl : body.moodLabel = some lbl)
    (hbad : sc ∉ validScores ∨ lbl ∉ validLabels) :
    (recordMood hash (some uid) body store now).status = 400 ∧
    (recordMood hash (some uid) body store now).store = store := by
  simp only [recordMood, hsc, hlbl]
  by_cases hl : lbl = ""
  · simp [hl]
  · rcases hbad with h | h
    · simp [hl, h]
    · by_cases hs : sc ∈ validScores
      · simp [hl, hs, h]
      · simp [hl, hs]

def badScoreBody : RecordBody := { moodScore := some 3, moodLabel := some "HAPPY" }

theorem c4_record_invalid_rejected_witness :
    (recordMood (fun _ => "h") (some 1) badScoreBody [] 0).status = 400 ∧
    (recordMood (fun _ => "h") (some 1) badScoreBody [] 0).store = [] :=
  c4_record_invalid_rejected (fun _ => "h") 1 badScoreBody [] 0 3 "HAPPY"
    rfl rfl (Or.inl (by decide))

/-- A record-mood body whose `source` is outside the enumeration but whose
other fields are valid. -/
def badSourceBody : RecordBody :=
  { moodScore := some 0, moodLabel := some "NEUTRAL",
    source := some "FURIOUS_SOURCE" }

/-- C5 counterexample: a supplied out-of-enumeration `source` does NOT
fail with InvalidArgument (400); the store-level enum validation rejects
the insert and the catch block maps it to 500. -/
theorem c5_source_not_invalid_argument :
    (recordMood (fun _ => "h") (some 1) badSourceBody [] 0).status = 500 ∧
    ¬(recordMood (fun _ => "h") (some 1) badSourceBody [] 0).status = 400 ∧
    (recordMood (fun _ => "h") (some 1) badSourceBody [] 0).store = [] := by
  decide

/-- C5 amended: with a resolved identity and valid `moodScore` and
`moodLabel`, a supplied `source` outside {USER_ENTRY, SESSION_END, PROMPT}
makes the store insert fail, surfaced as InternalError (500), and no entry
is written. -/
theorem c5_source_internal_error (hash : String → String) (uid : Nat)
    (body : RecordBody) (store : List MoodEntry) (now : Int) (sc : Int)
    (lbl src : String) (hsc : body.moodScore = some sc)
    (hlbl : body.moodLabel = some lbl) (hsrc : body.source = some src)
    (hvs : sc ∈ validScores) (hvl : lbl ∈ validLabels)
    (hbad : src ∉ validSources) :
    (recordMood hash (some uid) body store now).status = 500 ∧
    (recordMood hash (some uid) body store now).store = store := by
  have hl : lbl ≠ "" := by rintro rfl; revert hvl; decide
  have hnl : ¬sc ∉ validScores := not_not_intro hvs
  have hnv : ¬lbl ∉ validLabels := not_not_intro hvl
  simp only [recordMood, hsc, hlbl, hsrc, Option.getD_some]
  rw [if_neg hl, if_neg hnl, if_neg hnv]
  have hcreate :
      moodEntryCreate store
        { userId := uid, timestamp := now, moodScore := sc, moodLabel := lbl,
          noteSummary := (noteFieldsOf hash body.note).1,
          noteHash := (noteFieldsOf hash body.note).2,
          noteEncrypted := none, source := src } = none := by
    simp [moodEntryCreate, hbad]
  simp [hcreate]

theorem c5_source_internal_error_witness :
    (recordMood (fun _ => "h") (some 1) badSourceBody [] 0).status = 500 ∧
    (recordMood (fun _ => "h") (some 1) badSourceBody [] 0).store = [] :=
  c5_source_internal_error (fun _ => "h") 1 badSourceBody [] 0 0 "NEUTRAL"
    "FURIOUS_SOURCE" rfl rfl rfl (by decide) (by decide) (by decide)

/-- What the spec says history would return with an unbounded range and no
record cap (spec 4.3 and 4.7): the user's entries, newest first, with the
hash/encrypted fields excluded — the comparison target of the refinement
claim C6. -/
def historySpecUnbounded (store : List MoodEntry) (uid : Nat) :
    List MoodEntry :=
  (sortByTimestampDesc (userEntries store uid none)).map selectHide

/-- C6: export returns exactly what history would return with no
date-range lower bound and no 1000-record cap (same newest-first order,
same per-entry shaping, same exclusion of the hash/encrypted fields); the
actual history pipeline is the same computation with a cutoff and a
1000-record cap, and whenever the user has at most 1000 entries, export
coincides with history over range "all". -/
theorem c6_export_is_uncapped_history (store : List MoodEntry) (uid : Nat) :
    (exportMoodData store (some uid)).data = historySpecUnbounded store uid ∧
    (∀ range now, (getMoodHistory store (some uid) range now).data =
      ((sortByTimestampDesc (userEntries store uid
          (getDateRange (rangeOrDefault range "7d") now))).take 1000).map
        selectHide) ∧
    (∀ now : Int, (userEntries store uid none).length ≤ 1000 →
      (exportMoodData store (some uid)).data =
        (getMoodHistory store (some uid) (some "all") now).data) := by
  refine ⟨?_, fun range now => rfl, fun now hlen => ?_⟩
  · simp [exportMoodData, historySpecUnbounded, userEntries]
  · have hall : rangeOrDefault (some "all") "7d" = "all" := by
      simp [rangeOrDefault]
    have hcut : getDateRange "all" now = none := by simp [getDateRange]
    have htake :
        (sortByTimestampDesc (userEntries store uid none)).take 1000 =
          sortByTimestampDesc (userEntries store uid none) :=
      List.take_of_length_le (by rw [length_sortByTimestampDesc]; exact hlen)
    have hue : userEntries store uid none = store.filter fun e => e.userId == uid := by
      simp [userEntries]
    simp only [exportMoodData, getMoodHistory, hall, hcut, htake, ← hue]

def c6ExampleStore : List MoodEntry :=
  [{ dfltEntry with userId := 1, timestamp := 5, moodScore := 2, moodLabel := "VERY_HAPPY", noteHash := some "deadbeef" },
   { dfltEntry with userId := 1, timestamp := 9, moodScore := 0, moodLabel := "NEUTRAL", noteEncrypted := some "secret" },
   { dfltEntry with userId := 2, timestamp := 7, moodScore := 1, moodLabel := "HAPPY" }]

theorem c6_export_is_uncapped_history_witness :
    (exportMoodData c6ExampleStore (some 1)).data =
      (getMoodHistory c6ExampleStore (some 1) (some "all") 100).data :=
  (c6_export_is_uncapped_history c6ExampleStore 1).2.2 100 (by decide)

/-- C8: every serialized mood entry a client can receive — from record
(201 payload), history and export — passes through the schema `toJSON`
transform, which removes the `noteEncrypted` and `noteHash` fields, for
every store state and input. -/
theorem c8_responses_hide_sensitive (hash : String → String)
    (userId : Option Nat) (body : RecordBody) (store : List MoodEntry)
    (range : Option String) (now : Int) :
    (∀ e : MoodEntry, (toJSONEntry e).all noSensitive = true) ∧
    (recordMoodSerialized hash userId body store now).all
      (fun fields => fields.all noSensitive) = true ∧
    (historySerialized store userId range now).all
      (fun fields => fields.all noSensitive) = true ∧
    (exportSerialized store userId).all
      (fun fields => fields.all noSensitive) = true := by
  have key : ∀ e : MoodEntry, (toJSONEntry e).all noSensitive = true := by
    intro e
    rw [List.all_eq_true]
    intro kv hkv
    exact (List.mem_filter.mp hkv).2
  refine ⟨key, ?_, ?_, ?_⟩
  · cases hopt : (recordMood hash userId body store now).created with
    | none => simp [recordMoodSerialized, hopt]
    | some e => simp [recordMoodSerialized, hopt, key]
  · rw [historySerialized, List.all_eq_true]
    intro fields hf
    rcases List.mem_map.mp hf with ⟨e, _, rfl⟩
    exact key e
  · rw [exportSerialized, List.all_eq_true]
    intro fields hf
    rcases List.mem_map.mp hf with ⟨e, _, rfl⟩
    exact key e

/-- C10: a range value outside {"7d","30d","90d","all"} (and non-empty, so
it is not replaced by the endpoint's default before the helper runs) does
not produce an InvalidArgument failure: `getDateRange` falls through its
switch and returns the current time, history and stats succeed with 200,
and history filters to entries with timestamp ≥ now — so if every stored
entry is strictly older than now, the data set is empty. -/
theorem c10_unknown_range_no_error (range : String) (now : Int)
    (store : List MoodEntry) (uid : Nat)
    (h7 : range ≠ "7d") (h30 : range ≠ "30d") (h90 : range ≠ "90d")
    (hall : range ≠ "all") (hne : range ≠ "") :
    getDateRange range now = some now ∧
    (getMoodHistory store (some uid) (some range) now).status = 200 ∧
    (getMoodHistory store (some uid) (some range) now).data =
      ((sortByTimestampDesc (userEntries store uid (some now))).take 1000).map
        selectHide ∧
    (getMoodStats store (some uid) (some range) now).status = 200 ∧
    ((∀ e ∈ store, e.timestamp < now) →
      (getMoodHistory store (some uid) (some range) now).data = []) := by
  have hg : getDateRange range now = some now := by
    simp [getDateRange, h7, h30, h90, hall]
  have hr : rangeOrDefault (some range) "7d" = range := by
    simp [rangeOrDefault, hne]
  refine ⟨hg, rfl, ?_, rfl, ?_⟩
  · simp [getMoodHistory, hr, hg]
  · intro hts
    have hempty : userEntries store uid (some now) = [] := by
      rw [userEntries, List.filter_eq_nil_iff]
      intro e he
      simp only [Bool.and_eq_true, beq_iff_eq, decide_eq_true_eq, not_and]
      intro _
      exact not_le.mpr (hts e he)
    simp [getMoodHistory, hr, hg, hempty, sortByTimestampDesc]

theorem c10_unknown_range_no_error_witness :
    getDateRange "5d" 50 = some 50 ∧
    (getMoodHistory c6ExampleStore (some 1) (some "5d") 50).status = 200 ∧
    (getMoodStats c6ExampleStore (some 1) (some "5d") 50).status = 200 ∧
    (getMoodHistory c6ExampleStore (some 1) (some "5d") 50).data = [] := by
  have h := c10_unknown_range_no_error "5d" 50 c6ExampleStore 1
    (by decide) (by decide) (by decide) (by decide) (by decide)
  exact ⟨h.1, h.2.1, h.2.2.2.1, h.2.2.2.2 (by decide)⟩

theorem lowerInsight_ne_positiveInsight (n m : Nat) :
    lowerInsight n ≠ positiveInsight m := by
  intro h
  have ht := congrArg Insight.title h
  simp [lowerInsight, positiveInsight] at ht

theorem positiveInsight_ne_lowerInsight (n m : Nat) :
    positiveInsight n ≠ lowerInsight m :=
  (lowerInsight_ne_positiveInsight m n).symm

theorem lowerInsight_ne_variabilityInsight (n m : Nat) :
    lowerInsight n ≠ variabilityInsight m := by
  intro h
  have ht := congrArg Insight.title h
  simp [lowerInsight, variabilityInsight] at ht

theorem variabilityInsight_ne_lowerInsight (n m : Nat) :
    variabilityInsight n ≠ lowerInsight m :=
  (lowerInsight_ne_variabilityInsight m n).symm

theorem positiveInsight_ne_variabilityInsight (n m : Nat) :
    positiveInsight n ≠ variabilityInsight m := by
  intro h
  have ht := congrArg Insight.title h
  simp [positiveInsight, variabilityInsight] at ht

theorem variabilityInsight_ne_positiveInsight (n m : Nat) :
    variabilityInsight n ≠ positiveInsight m :=
  (positiveInsight_ne_variabilityInsight m n).symm

/-- C3: with fewer than 7 recent entries the insights payload is empty
with the explanatory message; otherwise the lower-mood insight is present
iff the mean is < -0.5, the positive-trend insight is present iff the mean
is > 0.5 (never both), and the variability insight is present iff the
population variance is > 1.5, independently of the mean branch. -/
theorem c3_insight_thresholds (store : List MoodEntry) (uid : Nat) :
    ((recentEntries30 store uid).length < 7 →
      (getMoodInsights store (some uid)).data = [] ∧
      (getMoodInsights store (some uid)).message =
        some "Not enough data for insights. Keep tracking!") ∧
    (7 ≤ (recentEntries30 store uid).length →
      (lowerInsight (recentEntries30 store uid).length ∈
          (getMoodInsights store (some uid)).data ↔
        mean ((recentEntries30 store uid).map (·.moodScore)) < -(1 / 2)) ∧
      (positiveInsight (recentEntries30 store uid).length ∈
          (getMoodInsights store (some uid)).data ↔
        1 / 2 < mean ((recentEntries30 store uid).map (·.moodScore))) ∧
      ¬(lowerInsight (recentEntries30 store uid).length ∈
          (getMoodInsights store (some uid)).data ∧
        positiveInsight (recentEntries30 store uid).length ∈
          (getMoodInsights store (some uid)).data) ∧
      (variabilityInsight (recentEntries30 store uid).length ∈
          (getMoodInsights store (some uid)).data ↔
        3 / 2 <
          insightVariance ((recentEntries30 store uid).map (·.moodScore)))) := by
  constructor
  · intro h
    simp [getMoodInsights, if_pos h]
  · intro h
    have hlt : ¬(recentEntries30 store uid).length < 7 := not_lt.mpr h
    simp only [getMoodInsights, if_neg hlt]
    by_cases h1 :
        mean ((recentEntries30 store uid).map (·.moodScore)) < -(1 / 2)
    · have h2 :
          ¬(1 / 2 < mean ((recentEntries30 store uid).map (·.moodScore))) := by
        intro h2
        linarith
      rw [if_pos h1]
      by_cases h3 :
          (3 : ℚ) / 2 <
            insightVariance ((recentEntries30 store uid).map (·.moodScore))
      · rw [if_pos h3]
        refine ⟨iff_of_true (by simp) h1,
          iff_of_false (by simp [positiveInsight_ne_lowerInsight,
            positiveInsight_ne_variabilityInsight]) h2,
          fun hb => absurd hb.2 (by simp [positiveInsight_ne_lowerInsight,
            positiveInsight_ne_variabilityInsight]),
          iff_of_true (by simp) h3⟩
      · rw [if_neg h3]
        refine ⟨iff_of_true (by simp) h1,
          iff_of_false (by simp [positiveInsight_ne_lowerInsight]) h2,
          fun hb => absurd hb.2 (by simp [positiveInsight_ne_lowerInsight]),
          iff_of_false (by simp [variabilityInsight_ne_lowerInsight]) h3⟩
    · rw [if_neg h1]
      by_cases h2 :
          1 / 2 < mean ((recentEntries30 store uid).map (·.moodScore))
      · rw [if_pos h2]
        by_cases h3 :
            (3 : ℚ) / 2 <
              insightVariance ((recentEntries30 store uid).map (·.moodScore))
        · rw [if_pos h3]
          refine ⟨iff_of_false (by simp [lowerInsight_ne_positiveInsight,
              lowerInsight_ne_variabilityInsight]) h1,
            iff_of_true (by simp) h2,
            fun hb => absurd hb.1 (by simp [lowerInsight_ne_positiveInsight,
              lowerInsight_ne_variabilityInsight]),
            iff_of_true (by simp) h3⟩
        · rw [if_neg h3]
          refine ⟨iff_of_false (by simp [lowerInsight_ne_positiveInsight]) h1,
            iff_of_true (by simp) h2,
            fun hb => absurd hb.1 (by simp [lowerInsight_ne_positiveInsight]),
            iff_of_false (by simp [variabilityInsight_ne_positiveInsight]) h3⟩
      · rw [if_neg h2]
        by_cases h3 :
            (3 : ℚ) / 2 <
              insightVariance ((recentEntries30 store uid).map (·.moodScore))
        · rw [if_pos h3]
          refine ⟨iff_of_false (by simp [lowerInsight_ne_variabilityInsight]) h1,
            iff_of_false (by simp [positiveInsight_ne_variabilityInsight]) h2,
            fun hb => absurd hb.1 (by simp [lowerInsight_ne_variabilityInsight]),
            iff_of_true (by simp) h3⟩
        · rw [if_neg h3]
          refine ⟨iff_of_false (by simp) h1, iff_of_false (by simp) h2,
            fun hb => absurd hb.1 (by simp),
            iff_of_false (by simp) h3⟩

def c3SmallStore : List MoodEntry :=
  [{ dfltEntry with userId := 1, timestamp := 1, moodScore := 0, moodLabel := "NEUTRAL" }]

def c3BigStore : List MoodEntry :=
  (List.range 8).map fun i =>
    { dfltEntry with userId := 1, timestamp := (i : Int), moodScore := -1, moodLabel := "SAD" }

theorem c3_insight_thresholds_witness :
    ((getMoodInsights c3SmallStore (some 1)).data = [] ∧
      (getMoodInsights c3SmallStore (some 1)).message =
        some "Not enough data for insights. Keep tracking!") ∧
    (lowerInsight (recentEntries30 c3BigStore 1).length ∈
        (getMoodInsights c3BigStore (some 1)).data ↔
      mean ((recentEntries30 c3BigStore 1).map (·.moodScore)) < -(1 / 2)) :=
  ⟨(c3_insight_thresholds c3SmallStore 1).1 (by decide),
   ((c3_insight_thresholds c3BigStore 1).2 (by decide)).1⟩

theorem trendPatternsOf_type (entries : List MoodEntry) :
    ∀ p ∈ trendPatternsOf entries, p.type = "trend" := by
  intro p hp
  simp only [trendPatternsOf] at hp
  split at hp
  · split at hp
    · rcases List.mem_singleton.mp hp with rfl
      rfl
    · exact absurd hp (List.not_mem_nil p)
  · exact absurd hp (List.not_mem_nil p)

/-- C9: over the most recent 90 entries (at least 14 present), the
time-based pattern is emitted iff there are more than 5 weekday samples,
more than 2 weekend samples, and the weekday and weekend means differ by
more than 0.5 in absolute value; when emitted its confidence is
min(diff/2, 0.9) and its description reports lower mood on weekdays when
the weekday mean is below the weekend mean, higher otherwise. -/
theorem c9_time_pattern (store : List MoodEntry) (uid : Nat)
    (h : 14 ≤ (recentEntries90 store uid).length) :
    ((∃ p ∈ (getMoodPatterns store (some uid)).data, p.type = "time_based") ↔
      5 < (weekdayScoresOf (recentEntries90 store uid)).length ∧
      2 < (weekendScoresOf (recentEntries90 store uid)).length ∧
      1 / 2 < |mean (weekdayScoresOf (recentEntries90 store uid)) -
        mean (weekendScoresOf (recentEntries90 store uid))|) ∧
    (∀ p ∈ (getMoodPatterns store (some uid)).data, p.type = "time_based" →
      p.confidence =
        min (|mean (weekdayScoresOf (recentEntries90 store uid)) -
          mean (weekendScoresOf (recentEntries90 store uid))| / 2) (9 / 10) ∧
      (mean (weekdayScoresOf (recentEntries90 store uid)) <
          mean (weekendScoresOf (recentEntries90 store uid)) →
        p.description =
          "Your mood tends to be lower on weekdays compared to weekends.") ∧
      (mean (weekendScoresOf (recentEntries90 store uid)) ≤
          mean (weekdayScoresOf (recentEntries90 store uid)) →
        p.description =
          "Your mood tends to be higher on weekdays compared to weekends.")) := by
  have hlt : ¬(recentEntries90 store uid).length < 14 := not_lt.mpr h
  have hdata : (getMoodPatterns store (some uid)).data =
      timePatternsOf (recentEntries90 store uid) ++
        trendPatternsOf (recentEntries90 store uid) := by
    simp [getMoodPatterns, if_neg hlt]
  rw [hdata]
  by_cases hc : 5 < (weekdayScoresOf (recentEntries90 store uid)).length ∧
      2 < (weekendScoresOf (recentEntries90 store uid)).length
  · by_cases hd : (1 : ℚ) / 2 <
        |mean (weekdayScoresOf (recentEntries90 store uid)) -
          mean (weekendScoresOf (recentEntries90 store uid))|
    · have htime : timePatternsOf (recentEntries90 store uid) =
          [{ type := "time_based",
             description :=
               if mean (weekdayScoresOf (recentEntries90 store uid)) <
                   mean (weekendScoresOf (recentEntries90 store uid)) then
                 "Your mood tends to be lower on weekdays compared to weekends."
               else
                 "Your mood tends to be higher on weekdays compared to weekends.",
             confidence :=
               min (|mean (weekdayScoresOf (recentEntries90 store uid)) -
                 mean (weekendScoresOf (recentEntries90 store uid))| / 2) (9 / 10),
             suggestion := "Consider what differs between weekdays and weekends that might affect your mood." }] := by
        simp only [timePatternsOf, if_pos hc, if_pos hd]
      rw [htime]
      constructor
      · exact iff_of_true ⟨_, List.mem_cons_self _ _, rfl⟩ ⟨hc.1, hc.2, hd⟩
      · intro p hp htype
        rcases List.mem_cons.mp hp with rfl | hp
        · refine ⟨rfl, fun hlo => ?_, fun hhi => ?_⟩
          · simp only [if_pos hlo]
          · simp only [if_neg (not_lt.mpr hhi)]
        · exact absurd htype (by rw [trendPatternsOf_type _ p hp]; decide)
    · have htime : timePatternsOf (recentEntries90 store uid) = [] := by
        simp only [timePatternsOf, if_pos hc, if_neg hd]
      rw [htime, List.nil_append]
      constructor
      · refine iff_of_false ?_ (fun hcontra => hd hcontra.2.2)
        rintro ⟨p, hp, htype⟩
        exact absurd htype (by rw [trendPatternsOf_type _ p hp]; decide)
      · intro p hp htype
        exact absurd htype (by rw [trendPatternsOf_type _ p hp]; decide)
  · have htime : timePatternsOf (recentEntries90 store uid) = [] := by
      simp only [timePatternsOf, if_neg hc]
    rw [htime, List.nil_append]
    constructor
    · refine iff_of_false ?_ (fun hcontra => hc ⟨hcontra.1, hcontra.2.1⟩)
      rintro ⟨p, hp, htype⟩
      exact absurd htype (by rw [trendPatternsOf_type _ p hp]; decide)
    · intro p hp htype
      exact absurd htype (by rw [trendPatternsOf_type _ p hp]; decide)

def c9Score (i : Nat) : Int :=
  if jsGetDay ((i : Int) * msPerDay) == 0 || jsGetDay ((i : Int) * msPerDay) == 6 then 2 else 0

def c9ExampleStore : List MoodEntry :=
  (List.range 14).map fun (i : Nat) =>
    { dfltEntry with userId := 1, timestamp := (i : Int) * msPerDay, moodScore := c9Score i, moodLabel := "NEUTRAL" }

theorem c9_time_pattern_witness :
    (∃ p ∈ (getMoodPatterns c9ExampleStore (some 1)).data,
        p.type = "time_based") ↔
      5 < (weekdayScoresOf (recentEntries90 c9ExampleStore 1)).length ∧
      2 < (weekendScoresOf (recentEntries90 c9ExampleStore 1)).length ∧
      1 / 2 < |mean (weekdayScoresOf (recentEntries90 c9ExampleStore 1)) -
        mean (weekendScoresOf (recentEntries90 c9ExampleStore 1))| :=
  (c9_time_pattern c9ExampleStore 1 (by decide)).1

/-- The best-day fold keeps the first-seen maximum: either nothing beat
the seed, or the result is the first list element that strictly exceeds
the seed and every other element. -/
theorem foldl_bestStep_spec (l : List MoodEntry) (b : MoodEntry) :
    (l.foldl bestStep b = b ∧ ∀ e ∈ l, e.moodScore ≤ b.moodScore) ∨
    (∃ i, ∃ hi : i < l.length,
      l.foldl bestStep b = l.get ⟨i, hi⟩ ∧
      b.moodScore < (l.get ⟨i, hi⟩).moodScore ∧
      (∀ e ∈ l, e.moodScore ≤ (l.get ⟨i, hi⟩).moodScore) ∧
      ∀ j, ∀ hj : j < i,
        (l.get ⟨j, hj.trans hi⟩).moodScore < (l.get ⟨i, hi⟩).moodScore) := by
  induction l generalizing b with
  | nil => exact Or.inl ⟨rfl, by simp⟩
  | cons c rest ih =>
      simp only [List.foldl_cons]
      by_cases hbc : b.moodScore < c.moodScore
      · have hstep : bestStep b c = c := if_pos hbc
        rw [hstep]
        rcases ih c with ⟨heq, hmax⟩ | ⟨i, hi, heq, hlt, hmax, hfirst⟩
        · refine Or.inr ⟨0, by simp, by simpa using heq, by simpa using hbc,
            ?_, fun j hj => absurd hj (Nat.not_lt_zero j)⟩
          intro e he
          rcases List.mem_cons.mp he with rfl | he
          · simp
          · simpa using hmax e he
        · refine Or.inr ⟨i + 1, by simpa using Nat.succ_lt_succ hi,
            by simpa using heq, ?_, ?_, ?_⟩
          · simpa using hbc.trans hlt
          · intro e he
            rcases List.mem_cons.mp he with rfl | he
            · simpa using le_of_lt hlt
            · simpa using hmax e he
          · intro j hj
            cases j with
            | zero => simpa using hlt
            | succ j' => simpa using hfirst j' (by omega)
      · have hstep : bestStep b c = b := if_neg hbc
        rw [hstep]
        rcases ih b with ⟨heq, hmax⟩ | ⟨i, hi, heq, hlt, hmax, hfirst⟩
        · refine Or.inl ⟨heq, ?_⟩
          intro e he
          rcases List.mem_cons.mp he with rfl | he
          · exact not_lt.mp hbc
          · exact hmax e he
        · refine Or.inr ⟨i + 1, by simpa using Nat.succ_lt_succ hi,
            by simpa using heq, by simpa using hlt, ?_, ?_⟩
          · intro e he
            rcases List.mem_cons.mp he with rfl | he
            · simpa using le_of_lt (lt_of_le_of_lt (not_lt.mp hbc) hlt)
            · simpa using hmax e he
          · intro j hj
            cases j with
            | zero => simpa using lt_of_le_of_lt (not_lt.mp hbc) hlt
            | succ j' => simpa using hfirst j' (by omega)

/-- C7: for a non-empty window, `bestDay` reports the calendar date and
score of the first entry (in iteration order, newest first) attaining the
maximum `moodScore`; for an empty window it reports score 0 and the
current timestamp's date. -/
theorem c7_best_day (store : List MoodEntry) (uid : Nat)
    (range : Option String) (now : Int) :
    (statsEntries store uid range now = [] →
      (getMoodStatsData store uid range now).bestDayScore = 0 ∧
      (getMoodStatsData store uid range now).bestDayDate = epochDay now) ∧
    (statsEntries store uid range now ≠ [] →
      ∃ i, ∃ hi : i < (statsEntries store uid range now).length,
        (getMoodStatsData store uid range now).bestDayScore =
          ((statsEntries store uid range now).get ⟨i, hi⟩).moodScore ∧
        (getMoodStatsData store uid range now).bestDayDate =
          epochDay (((statsEntries store uid range now).get ⟨i, hi⟩).timestamp) ∧
        (∀ e ∈ statsEntries store uid range now,
          e.moodScore ≤
            ((statsEntries store uid range now).get ⟨i, hi⟩).moodScore) ∧
        ∀ j, ∀ hj : j < i,
          ((statsEntries store uid range now).get ⟨j, hj.trans hi⟩).moodScore <
            ((statsEntries store uid range now).get ⟨i, hi⟩).moodScore) := by
  have hbs : (getMoodStatsData store uid range now).bestDayScore =
      ((statsEntries store uid range now).foldl bestStep
        ((statsEntries store uid range now).headD
          { dfltEntry with timestamp := now })).moodScore := rfl
  have hbd : (getMoodStatsData store uid range now).bestDayDate =
      epochDay (((statsEntries store uid range now).foldl bestStep
        ((statsEntries store uid range now).headD
          { dfltEntry with timestamp := now })).timestamp) := rfl
  constructor
  · intro h
    rw [hbs, hbd, h]
    simp [dfltEntry]
  · intro hne
    obtain ⟨e, rest, hl⟩ := List.exists_cons_of_ne_nil hne
    rw [hl] at hbs hbd ⊢
    simp only [List.headD_cons] at hbs hbd
    rcases foldl_bestStep_spec (e :: rest) e with
      ⟨heq, hmax⟩ | ⟨i, hi, heq, _, hmax, hfirst⟩
    · refine ⟨0, by simp, ?_, ?_, ?_, fun j hj => absurd hj (Nat.not_lt_zero j)⟩
      · rw [hbs, heq]; simp
      · rw [hbd, heq]; simp
      · intro x hx
        simpa using hmax x hx
    · refine ⟨i, hi, ?_, ?_, hmax, hfirst⟩
      · rw [hbs, heq]
      · rw [hbd, heq]

def c7ExampleStore : List MoodEntry :=
  [{ dfltEntry with userId := 1, timestamp := 30, moodScore := 1, moodLabel := "HAPPY" },
   { dfltEntry with userId := 1, timestamp := 20, moodScore := 2, moodLabel := "VERY_HAPPY" },
   { dfltEntry with userId := 1, timestamp := 10, moodScore := 2, moodLabel := "VERY_HAPPY" }]

theorem c7_best_day_witness :
    ∃ i, ∃ hi : i < (statsEntries c7ExampleStore 1 (some "all") 40).length,
      (getMoodStatsData c7ExampleStore 1 (some "all") 40).bestDayScore =
        ((statsEntries c7ExampleStore 1 (some "all") 40).get ⟨i, hi⟩).moodScore ∧
      (getMoodStatsData c7ExampleStore 1 (some "all") 40).bestDayDate =
        epochDay
          (((statsEntries c7ExampleStore 1 (some "all") 40).get ⟨i, hi⟩).timestamp) ∧
      (∀ e ∈ statsEntries c7ExampleStore 1 (some "all") 40,
        e.moodScore ≤
          ((statsEntries c7ExampleStore 1 (some "all") 40).get ⟨i, hi⟩).moodScore) ∧
      ∀ j, ∀ hj : j < i,
        ((statsEntries c7ExampleStore 1 (some "all") 40).get
            ⟨j, hj.trans hi⟩).moodScore <
          ((statsEntries c7ExampleStore 1 (some "all") 40).get ⟨i, hi⟩).moodScore :=
  (c7_best_day c7ExampleStore 1 (some "all") 40).2 (by decide)

theorem streakGo_le_length (now : Int) (l : List MoodEntry) (i0 : Nat) :
    streakGo now l i0 ≤ l.length := by
  induction l generalizing i0 with
  | nil => simp [streakGo]
  | cons e rest ih =>
      simp only [streakGo, List.length_cons]
      split
      · exact Nat.succ_le_succ (ih (i0 + 1))
      · exact Nat.zero_le _

theorem streakGo_aligned (now : Int) (l : List MoodEntry) (i0 : Nat) :
    ∀ j < streakGo now l i0,
      daysDiff now ((l.getD j dfltEntry).timestamp) = (i0 : Int) + j := by
  induction l generalizing i0 with
  | nil => intro j hj; simp [streakGo] at hj
  | cons e rest ih =>
      intro j hj
      simp only [streakGo] at hj
      by_cases hd : daysDiff now e.timestamp = (i0 : Int)
      · rw [if_pos hd] at hj
        cases j with
        | zero => simpa using hd
        | succ j' =>
            have hrec := ih (i0 + 1) j' (by omega)
            rw [List.getD_cons_succ]
            rw [hrec]
            push_cast
            ring
      · rw [if_neg hd] at hj
        omega

theorem streakGo_maximal (now : Int) (l : List MoodEntry) (i0 : Nat) :
    ∀ n ≤ l.length,
      (∀ j < n, daysDiff now ((l.getD j dfltEntry).timestamp) = (i0 : Int) + j) →
      n ≤ streakGo now l i0 := by
  induction l generalizing i0 with
  | nil =>
      intro n hn _
      simp only [List.length_nil, Nat.le_zero] at hn
      simp [hn, streakGo]
  | cons e rest ih =>
      intro n hn hal
      cases n with
      | zero => exact Nat.zero_le _
      | succ m =>
          have h0 : daysDiff now e.timestamp = (i0 : Int) := by
            simpa using hal 0 (Nat.succ_pos m)
          simp only [streakGo, if_pos h0]
          have hrest := ih (i0 + 1) m (by simpa using hn) ?_
          · omega
          · intro j hj
            have := hal (j + 1) (by omega)
            rw [List.getD_cons_succ] at this
            rw [this]
            push_cast
            ring

def c1Now : Int := 100 * msPerDay

/-- Five entries, one per day on five consecutive days ending today, with
scores [2,2,2,-2,-2]. -/
def c1FiveDayStore : List MoodEntry :=
  [{ dfltEntry with userId := 1, timestamp := c1Now, moodScore := 2, moodLabel := "VERY_HAPPY" },
   { dfltEntry with userId := 1, timestamp := c1Now - msPerDay, moodScore := 2, moodLabel := "VERY_HAPPY" },
   { dfltEntry with userId := 1, timestamp := c1Now - 2 * msPerDay, moodScore := 2, moodLabel := "VERY_HAPPY" },
   { dfltEntry with userId := 1, timestamp := c1Now - 3 * msPerDay, moodScore := -2, moodLabel := "VERY_SAD" },
   { dfltEntry with userId := 1, timestamp := c1Now - 4 * msPerDay, moodScore := -2, moodLabel := "VERY_SAD" }]

/-- The same day coverage, but with a second entry on the most recent
(already-counted) day. -/
def c1DupStore : List MoodEntry :=
  [{ dfltEntry with userId := 1, timestamp := c1Now, moodScore := 2, moodLabel := "VERY_HAPPY" },
   { dfltEntry with userId := 1, timestamp := c1Now - 1000, moodScore := 1, moodLabel := "HAPPY" },
   { dfltEntry with userId := 1, timestamp := c1Now - msPerDay, moodScore := 2, moodLabel := "VERY_HAPPY" },
   { dfltEntry with userId := 1, timestamp := c1Now - 2 * msPerDay, moodScore := 2, moodLabel := "VERY_HAPPY" },
   { dfltEntry with userId := 1, timestamp := c1Now - 3 * msPerDay, moodScore := -2, moodLabel := "VERY_SAD" }]

/-- C1: `currentStreak` is the length of the longest prefix of the
newest-first entries in which the i-th entry lies exactly i floor-days in
the past; five one-a-day entries ending today give streak 5, and a second
entry on an already-counted day breaks the index alignment and truncates
the streak at that index (here: 1). -/
theorem c1_streak (store : List MoodEntry) (uid : Nat) (range : Option String)
    (now : Int) :
    ((getMoodStatsData store uid range now).currentStreak ≤
      (sortByTimestampDesc (statsEntries store uid range now)).length ∧
     (∀ j < (getMoodStatsData store uid range now).currentStreak,
       daysDiff now
         (((sortByTimestampDesc (statsEntries store uid range now)).getD j
           dfltEntry).timestamp) = (j : Int)) ∧
     (∀ n ≤ (sortByTimestampDesc (statsEntries store uid range now)).length,
       (∀ j < n, daysDiff now
         (((sortByTimestampDesc (statsEntries store uid range now)).getD j
           dfltEntry).timestamp) = (j : Int)) →
       n ≤ (getMoodStatsData store uid range now).currentStreak)) ∧
    (getMoodStatsData c1FiveDayStore 1 (some "all") c1Now).currentStreak = 5 ∧
    (getMoodStatsData c1DupStore 1 (some "all") c1Now).currentStreak = 1 := by
  have hcs : (getMoodStatsData store uid range now).currentStreak =
      streakGo now (sortByTimestampDesc (statsEntries store uid range now)) 0 :=
    rfl
  refine ⟨⟨?_, ?_, ?_⟩, by decide, by decide⟩
  · rw [hcs]; exact streakGo_le_length now _ 0
  · intro j hj
    rw [hcs] at hj
    simpa using streakGo_aligned now _ 0 j hj
  · intro n hn hal
    rw [hcs]
    exact streakGo_maximal now _ 0 n hn (by intro j hj; simpa using hal j hj)

theorem c1_streak_witness :
    (getMoodStatsData c1FiveDayStore 1 (some "all") c1Now).currentStreak ≤
      (sortByTimestampDesc (statsEntries c1FiveDayStore 1 (some "all") c1Now)).length ∧
    5 ≤ (getMoodStatsData c1FiveDayStore 1 (some "all") c1Now).currentStreak :=
  ⟨(c1_streak c1FiveDayStore 1 (some "all") c1Now).1.1,
   (c1_streak c1FiveDayStore 1 (some "all") c1Now).1.2.2 5 (by decide) (by decide)⟩

end ClarityHub
